import Mathlib

/-!
Shallow embedding of `pyutils8ccr/menu.py` (the paged, key-driven selection
menu) and proofs about it.

Python strings are modelled as `List Char`; Python `int` as `Int` (page
numbers can become negative); `None`-able navigation keys as
`Option (List Char)`; the item payload type is a type parameter `α`.
A call that can raise is modelled by returning the post-state together with
an `Option` carrying the raised key (Python mutations performed before a
`raise` persist, so the post-state is returned in both cases).
-/

namespace PyMenu

/-- `MenuItem` from menu.py: a selectable entry with a payload `value`, a
display `name` and an identifier `id`.  The Python defaults
(`str(value)` / `hash(value)`) are not modelled; the fields are taken as
given. -/
structure MenuItem (α : Type) where
  value : α
  name : List Char
  id : Int
deriving DecidableEq, Repr

/-- The fields of a `PagedMenu` object from menu.py, after construction
(plus the `selected` / `selected_value` attributes that `run` initialises
before looping). -/
structure MenuState (α : Type) where
  items : List (MenuItem α)
  page_size : Nat
  current_page : Int
  keys : List Char
  next_page_key : List Char
  previous_page_key : List Char
  first_page_key : Option (List Char)
  last_page_key : Option (List Char)
  default : α
  total_pages : Nat
  status : List Char
  selected : Bool
  selected_value : α
deriving DecidableEq, Repr

/-- `leadsWith t s` is true when the string `s` starts with the string `t`
(helper for Python substring search). -/
def leadsWith : List Char → List Char → Bool
  | [], _ => true
  | _ :: _, [] => false
  | a :: s, b :: t => if a = b then leadsWith s t else false

/-- Python substring search: `findSub s sub` is `some i` when `i` is the
smallest index at which `sub` occurs contiguously in `s` (this is what both
`sub in s` and `s.index(sub)` use on Python strings; note `"" in s` is
`True` with index 0), and `none` when `sub` does not occur in `s`. -/
def findSub : List Char → List Char → Option Nat
  | [], sub => if leadsWith sub [] then some 0 else none
  | c :: t, sub =>
    if leadsWith sub (c :: t) then some 0
    else (findSub t sub).map (fun n => n + 1)

/-- Python `command == key and key` for an optional navigation key:
true when the key is present, equals the command, and is truthy
(a non-empty string). -/
def optKeyMatches (command : List Char) : Option (List Char) → Bool
  | some k => decide (command = k ∧ k ≠ [])
  | none => false

/-- Python `key and key in keys` for an optional navigation key:
true when the key is present, truthy, and occurs in `keys`. -/
def optKeyCollides (keys : List Char) : Option (List Char) → Bool
  | some k => decide (k ≠ []) && (findSub keys k).isSome
  | none => false

/-- `PagedMenu.__init__` from menu.py: the validation chain followed by the
field assignments.  A `ValueError` is modelled as `.error` carrying the
message; success returns the constructed state.  (`parse_items` is not
modelled: the already-normalised item list is passed in directly.) -/
def mkPagedMenu {α : Type} (menu_items : List (MenuItem α)) (page_size : Int)
    (keys : List Char) (next_page_key previous_page_key : List Char)
    (first_page_key last_page_key : Option (List Char)) (default : α) :
    Except (List Char) (MenuState α) :=
  if page_size < 2 then
    .error "Page size less than 2".toList
  else if keys = [] ∨ keys.length < 2 then
    .error "Less than 2 keys defined".toList
  else if (keys.length : Int) < page_size then
    .error "Not enough keys for the page size".toList
  else if (findSub keys next_page_key).isSome then
    .error "Next page key cannot be used as menu key".toList
  else if (findSub keys previous_page_key).isSome then
    .error "Previous page key cannot be used as menu key".toList
  else if optKeyCollides keys first_page_key then
    .error "First page key cannot be used as menu key".toList
  else if optKeyCollides keys last_page_key then
    .error "Last page key cannot be used as menu key".toList
  else
    let ps : Nat := min page_size.toNat keys.length
    .ok {
      items := menu_items
      page_size := ps
      current_page := 0
      keys := keys.take ps
      next_page_key := next_page_key
      previous_page_key := previous_page_key
      first_page_key := first_page_key
      last_page_key := last_page_key
      default := default
      total_pages := (menu_items.length + ps - 1) / ps
      status := []
      selected := false
      selected_value := default }

/-- Python list slicing `xs[start:stop]` with step 1: negative indices are
shifted by the length, then both bounds are clamped to `[0, len(xs)]`. -/
def pySlice {γ : Type} (xs : List γ) (start stop : Int) : List γ :=
  let n : Int := xs.length
  let a : Int := if start < 0 then max (start + n) 0 else min start n
  let b : Int := if stop < 0 then max (stop + n) 0 else min stop n
  (xs.take b.toNat).drop a.toNat

/-- `PagedMenu.get_page_items` from menu.py:
`self.items[page * self.page_size : page * self.page_size + self.page_size]`. -/
def get_page_items {α : Type} (s : MenuState α) (page : Int) : List (MenuItem α) :=
  pySlice s.items (page * (s.page_size : Int))
    (page * (s.page_size : Int) + (s.page_size : Int))

/-- The if/elif chain of `PagedMenu.navigate` (everything after the initial
`if command == '':` statement, which is a separate `if` in the source and is
handled in `navigate`).  Returns the post-state and `some key` when
`InvalidMenuKeyError(key)` is raised, `none` otherwise.  The final
`elif command in self.keys: index = self.keys.index(command); ...` of the
source is modelled by one match on the substring search `findSub`:
`some index` is the membership test succeeding with that positional index,
`none` is the final `else: raise`. -/
def navigateAux {α : Type} (s : MenuState α) (command : List Char) :
    MenuState α × Option (List Char) :=
  if command = s.next_page_key then
    if s.current_page < (s.total_pages : Int) - 1 then
      ({ s with current_page := s.current_page + 1 }, none)
    else (s, none)
  else if command = s.previous_page_key then
    if s.current_page > 0 then
      ({ s with current_page := s.current_page - 1 }, none)
    else (s, none)
  else if optKeyMatches command s.first_page_key then
    ({ s with current_page := 0 }, none)
  else if optKeyMatches command s.last_page_key then
    ({ s with current_page := (s.total_pages : Int) - 1 }, none)
  else
    match findSub s.keys command with
    | some index =>
      if hlt : index < (get_page_items s s.current_page).length then
        ({ s with
            selected := true
            selected_value := ((get_page_items s s.current_page).get ⟨index, hlt⟩).value },
          none)
      else (s, some command)
    | none => (s, some command)

/-- `PagedMenu.navigate` from menu.py.  The source first runs
`if command == '':` (setting `selected` and `selected_value`) and then,
without an intervening `elif` or `return`, falls into the if/elif chain
modelled by `navigateAux`. -/
def navigate {α : Type} (s : MenuState α) (command : List Char) :
    MenuState α × Option (List Char) :=
  navigateAux
    (if command = [] then { s with selected := true, selected_value := s.default } else s)
    command

/-- The status message the run loop stores when it catches
`InvalidMenuKeyError`: `f"Error: {e.key} is not a valid menu key."`. -/
def invalidKeyStatus (k : List Char) : List Char :=
  "Error: ".toList ++ k ++ " is not a valid menu key.".toList

/-- Outcome of one iteration of the `run` loop body: either the loop
continues with a new state, or `run` returns a value. -/
inductive StepResult (α : Type) where
  | cont (s : MenuState α)
  | done (v : α)
deriving DecidableEq, Repr

/-- One iteration of the body of `PagedMenu.run` on an already-stripped
command: call `navigate`; on success return `selected_value` if `selected`,
otherwise continue; on `InvalidMenuKeyError` store the status message and
continue. -/
def runStep {α : Type} (s : MenuState α) (command : List Char) : StepResult α :=
  match navigate s command with
  | (s2, some k) => .cont { s2 with status := invalidKeyStatus k }
  | (s2, none) => if s2.selected then .done s2.selected_value else .cont s2

/-- Python `str.strip()`: remove leading and trailing whitespace. -/
def pyStrip (s : List Char) : List Char :=
  ((s.dropWhile Char.isWhitespace).reverse.dropWhile Char.isWhitespace).reverse

/-- The `while True:` loop of `PagedMenu.run`, driven by a transcript of
input lines (`none` when the input is exhausted before a selection). -/
def runLoop {α : Type} (s : MenuState α) : List (List Char) → Option α
  | [] => none
  | line :: rest =>
    match runStep s (pyStrip line) with
    | .done v => some v
    | .cont s2 => runLoop s2 rest

/-- `PagedMenu.run` from menu.py: initialise `selected := False`,
`selected_value := default`, then loop. -/
def run {α : Type} (s : MenuState α) (inputs : List (List Char)) : Option α :=
  runLoop { s with selected := false, selected_value := s.default } inputs

/-- A menu item carrying only a payload (names and ids are irrelevant to the
claims). -/
def item (v : Nat) : MenuItem Nat :=
  { value := v, name := [], id := 0 }

/-- The menu `PagedMenu(value_items=[1,2,3], page_size=2, keys="ab",
default=0)` with the default navigation keys: the state produced by a
successful construction. -/
def menu3 : MenuState Nat :=
  { items := [item 1, item 2, item 3]
    page_size := 2
    current_page := 0
    keys := ['a', 'b']
    next_page_key := ['.']
    previous_page_key := [',']
    first_page_key := some ['<']
    last_page_key := some ['>']
    default := 0
    total_pages := 2
    status := []
    selected := false
    selected_value := 0 }

/-- Same configuration as `menu3` but with an empty item list
(`total_pages = 0`). -/
def menuEmpty : MenuState Nat :=
  { items := []
    page_size := 2
    current_page := 0
    keys := ['a', 'b']
    next_page_key := ['.']
    previous_page_key := [',']
    first_page_key := some ['<']
    last_page_key := some ['>']
    default := 0
    total_pages := 0
    status := []
    selected := false
    selected_value := 0 }

/-- Five items with `page_size=2`, `keys="ab"`, no first/last keys. -/
def menu5 : MenuState Nat :=
  { items := [item 1, item 2, item 3, item 4, item 5]
    page_size := 2
    current_page := 0
    keys := ['a', 'b']
    next_page_key := ['.']
    previous_page_key := [',']
    first_page_key := none
    last_page_key := none
    default := 0
    total_pages := 3
    status := []
    selected := false
    selected_value := 0 }

/-- A menu whose key alphabet `"aa"` has a repeated character (the
constructor does not validate key distinctness). -/
def menuAA : MenuState Nat :=
  { items := [item 10, item 20]
    page_size := 2
    current_page := 0
    keys := ['a', 'a']
    next_page_key := ['.']
    previous_page_key := [',']
    first_page_key := none
    last_page_key := none
    default := 0
    total_pages := 1
    status := []
    selected := false
    selected_value := 0 }

/-- A menu whose previous-page key equals its next-page key (the
constructor only checks navigation keys against `keys`). -/
def menuPP : MenuState Nat :=
  { items := [item 1, item 2, item 3]
    page_size := 2
    current_page := 0
    keys := ['a', 'b']
    next_page_key := ['.']
    previous_page_key := ['.']
    first_page_key := none
    last_page_key := none
    default := 0
    total_pages := 2
    status := []
    selected := false
    selected_value := 0 }

/-- Three items with `page_size=10` and keys `"abcdefghij"` (all on one
page). -/
def menu10 : MenuState Nat :=
  { items := [item 1, item 2, item 3]
    page_size := 10
    current_page := 0
    keys := ['a', 'b', 'c', 'd', 'e', 'f', 'g', 'h', 'i', 'j']
    next_page_key := ['.']
    previous_page_key := [',']
    first_page_key := none
    last_page_key := none
    default := 0
    total_pages := 1
    status := []
    selected := false
    selected_value := 0 }

deriving instance DecidableEq for Except

/-! ### Basic facts about the Python substring search -/

theorem leadsWith_iff (t s : List Char) : leadsWith t s = true ↔ ∃ r, s = t ++ r := by
  induction t generalizing s with
  | nil => exact iff_of_true rfl ⟨s, rfl⟩
  | cons a t ih =>
    cases s with
    | nil => simp [leadsWith]
    | cons b u =>
      by_cases hab : a = b
      · subst hab
        simp [leadsWith, ih]
      · simp only [leadsWith, if_neg hab, List.cons_append, List.cons.injEq]
        constructor
        · intro h; cases h
        · rintro ⟨r, hr, -⟩; exact absurd hr.symm hab

theorem findSub_isSome_iff (s t : List Char) :
    (findSub s t).isSome = true ↔ ∃ u r, s = u ++ t ++ r := by
  induction s with
  | nil =>
    by_cases ht : t = []
    · subst ht; simp [findSub, leadsWith]
    · have hlw : ¬ leadsWith t [] = true := by
        rw [leadsWith_iff]
        rintro ⟨r, hr⟩
        exact ht (List.append_eq_nil.mp hr.symm).1
      simp only [findSub, if_neg hlw, Option.isSome_none, Bool.false_eq_true, false_iff]
      rintro ⟨u, r, hr⟩
      rcases List.append_eq_nil.mp hr.symm with ⟨h1, -⟩
      exact ht (List.append_eq_nil.mp h1).2
  | cons c cs ih =>
    by_cases h : leadsWith t (c :: cs) = true
    · obtain ⟨r, hr⟩ := (leadsWith_iff t (c :: cs)).mp h
      simp only [findSub, if_pos h, Option.isSome_some, true_iff]
      exact ⟨[], r, by simpa using hr⟩
    · have hmap : (Option.map (fun n => n + 1) (findSub cs t)).isSome = (findSub cs t).isSome := by
        cases findSub cs t <;> rfl
      simp only [findSub, if_neg h, hmap]
      rw [ih]
      constructor
      · rintro ⟨u, r, rfl⟩
        exact ⟨c :: u, r, rfl⟩
      · rintro ⟨u, r, hu⟩
        cases u with
        | nil =>
          exact absurd ((leadsWith_iff t (c :: cs)).mpr ⟨r, by simpa using hu⟩) h
        | cons x xs =>
          refine ⟨xs, r, ?_⟩
          simpa using congrArg List.tail hu

theorem findSub_take_isSome {s t : List Char} {n : Nat}
    (h : (findSub (s.take n) t).isSome = true) : (findSub s t).isSome = true := by
  rw [findSub_isSome_iff] at h ⊢
  obtain ⟨u, r, hr⟩ := h
  refine ⟨u, r ++ s.drop n, ?_⟩
  conv_lhs => rw [← List.take_append_drop n s, hr]
  simp

theorem findSub_nodup_get {s : List Char} (hnd : s.Nodup) (i : Nat) (hi : i < s.length) :
    findSub s [s.get ⟨i, hi⟩] = some i := by
  induction s generalizing i with
  | nil => simp at hi
  | cons c cs ih =>
    cases i with
    | zero => simp [findSub, leadsWith]
    | succ j =>
      have hj : j < cs.length := by simpa using hi
      have hcs : cs.Nodup := (List.nodup_cons.mp hnd).2
      have hc : ¬ (cs[j] = c) := by
        intro h
        exact (List.nodup_cons.mp hnd).1 (h ▸ List.getElem_mem hj)
      have hlw : leadsWith [cs[j]] (c :: cs) = false := by
        simp [leadsWith, hc]
      have hstep : (c :: cs).get ⟨j + 1, hi⟩ = cs[j] := rfl
      rw [hstep]
      have hih := ih hcs j hj
      simp only [List.get_eq_getElem] at hih
      simp [findSub, hlw, hih]

/-! ### Inverting a successful construction -/

theorem mk_ok_inv {α : Type} {it : List (MenuItem α)} {ps : Int} {keys npk ppk : List Char}
    {fpk lpk : Option (List Char)} {d : α} {m : MenuState α}
    (h : mkPagedMenu it ps keys npk ppk fpk lpk d = .ok m) :
    2 ≤ ps ∧ 2 ≤ keys.length ∧ ps ≤ (keys.length : Int) ∧
    findSub keys npk = none ∧ findSub keys ppk = none ∧
    optKeyCollides keys fpk = false ∧ optKeyCollides keys lpk = false ∧
    m = { items := it
          page_size := min ps.toNat keys.length
          current_page := 0
          keys := keys.take (min ps.toNat keys.length)
          next_page_key := npk
          previous_page_key := ppk
          first_page_key := fpk
          last_page_key := lpk
          default := d
          total_pages := (it.length + min ps.toNat keys.length - 1) / min ps.toNat keys.length
          status := []
          selected := false
          selected_value := d } := by
  unfold mkPagedMenu at h
  split_ifs at h with h1 h2 h3 h4 h5 h6 h7
  push_neg at h2
  simp only [Except.ok.injEq] at h
  exact ⟨by omega, by omega, by omega,
    Option.not_isSome_iff_eq_none.mp h4, Option.not_isSome_iff_eq_none.mp h5,
    by simpa using h6, by simpa using h7, h.symm⟩

/-! ### Facts about Python slicing -/

theorem take_congr_min {γ : Type} (xs : List γ) {m k : Nat}
    (h : min m xs.length = min k xs.length) : xs.take m = xs.take k := by
  induction xs generalizing m k with
  | nil => simp
  | cons c t ih =>
    cases m with
    | zero =>
      cases k with
      | zero => rfl
      | succ k =>
        exfalso
        simp only [List.length_cons] at h
        omega
    | succ m =>
      cases k with
      | zero =>
        exfalso
        simp only [List.length_cons] at h
        omega
      | succ k =>
        simp only [List.take_succ_cons, List.cons.injEq, true_and]
        apply ih
        simp only [List.length_cons] at h
        omega

theorem drop_take_comm {γ : Type} (xs : List γ) (a b : Nat) :
    (xs.take b).drop a = (xs.drop a).take (b - a) := by
  rcases Nat.le_total a b with hab | hab
  · have hb : b = a + (b - a) := by omega
    rw [hb, ← List.take_drop]
    congr 1
    omega
  · have hb : b - a = 0 := by omega
    rw [hb, List.take_zero]
    apply List.drop_of_length_le
    simp only [List.length_take]
    omega

theorem pySlice_nonneg {γ : Type} (xs : List γ) (a : Int) (p : Nat) (ha : 0 ≤ a) :
    pySlice xs a (a + p) = (xs.drop a.toNat).take p := by
  simp only [pySlice]
  have h1 : ¬ (a < 0) := by omega
  have h2 : ¬ (a + (p : Int) < 0) := by omega
  simp only [if_neg h1, if_neg h2]
  by_cases hle : a ≤ (xs.length : Int)
  · rw [min_eq_left hle, drop_take_comm]
    apply take_congr_min
    simp only [List.length_drop]
    omega
  · rw [min_eq_right (by omega : (xs.length : Int) ≤ a)]
    rw [List.drop_of_length_le (by simp only [List.length_take]; omega)]
    rw [List.drop_of_length_le (by omega : xs.length ≤ a.toNat)]
    simp

theorem pySlice_length_le {γ : Type} (xs : List γ) (a : Int) (p : Nat) :
    (pySlice xs a (a + p)).length ≤ p := by
  simp only [pySlice, List.length_drop, List.length_take]
  split_ifs <;> omega

theorem get_page_items_nonneg {α : Type} (s : MenuState α) (page : Int) (hp : 0 ≤ page) :
    get_page_items s page = (s.items.drop (page.toNat * s.page_size)).take s.page_size := by
  unfold get_page_items
  have hcast : page * (s.page_size : Int) = ((page.toNat * s.page_size : Nat) : Int) := by
    push_cast [Int.toNat_of_nonneg hp]
    ring
  rw [hcast, pySlice_nonneg _ _ _ (Int.natCast_nonneg _), Int.toNat_natCast]

theorem get_page_items_length_le {α : Type} (s : MenuState α) (page : Int) :
    (get_page_items s page).length ≤ s.page_size := by
  unfold get_page_items
  exact pySlice_length_le _ _ _

/-! ### Frame facts about navigate -/

theorem navigate_of_ne_nil {α : Type} {s : MenuState α} {c : List Char} (hc : ¬ (c = [])) :
    navigate s c = navigateAux s c := by
  unfold navigate
  rw [if_neg hc]

theorem navigateAux_status {α : Type} (s : MenuState α) (c : List Char) :
    ((navigateAux s c).1).status = s.status := by
  unfold navigateAux
  split_ifs <;> try rfl
  cases hfs : findSub s.keys c with
  | none => rfl
  | some j =>
    dsimp only
    split_ifs <;> rfl

theorem navigate_status {α : Type} (s : MenuState α) (c : List Char) :
    ((navigate s c).1).status = s.status := by
  unfold navigate
  by_cases hc : c = []
  · rw [if_pos hc, navigateAux_status]
  · rw [if_neg hc, navigateAux_status]

theorem navigateAux_total_pages {α : Type} (s : MenuState α) (c : List Char) :
    ((navigateAux s c).1).total_pages = s.total_pages := by
  unfold navigateAux
  split_ifs <;> try rfl
  cases hfs : findSub s.keys c with
  | none => rfl
  | some j =>
    dsimp only
    split_ifs <;> rfl

theorem navigate_total_pages {α : Type} (s : MenuState α) (c : List Char) :
    ((navigate s c).1).total_pages = s.total_pages := by
  unfold navigate
  by_cases hc : c = []
  · rw [if_pos hc, navigateAux_total_pages]
  · rw [if_neg hc, navigateAux_total_pages]

/-! ### Page items and positional lookup -/

theorem get?_drop_add {γ : Type} (xs : List γ) (a i : Nat) :
    (xs.drop a).get? i = xs.get? (a + i) := by
  induction a generalizing xs with
  | zero => simp
  | succ a ih =>
    cases xs with
    | nil => simp
    | cons c t =>
      rw [List.drop_succ_cons, ih]
      rw [show a + 1 + i = (a + i) + 1 by omega]
      rfl

theorem get_page_items_get? {α : Type} (s : MenuState α) (p i : Nat)
    (hi : i < s.page_size) :
    (get_page_items s (p : Int)).get? i = s.items.get? (p * s.page_size + i) := by
  rw [get_page_items_nonneg s (p : Int) (Int.natCast_nonneg p), Int.toNat_natCast]
  rw [List.get?_take hi, get?_drop_add]

/-! ### The selection branch of the command chain -/

theorem navigateAux_select_of_lt {α : Type} (s : MenuState α) (c : List Char) (j : Nat)
    (hnpk : ¬ (c = s.next_page_key)) (hppk : ¬ (c = s.previous_page_key))
    (hfpk : optKeyMatches c s.first_page_key = false)
    (hlpk : optKeyMatches c s.last_page_key = false)
    (hfs : findSub s.keys c = some j)
    (hlt : j < (get_page_items s s.current_page).length) :
    (navigateAux s c).2 = none ∧ ((navigateAux s c).1).selected = true ∧
    ((navigateAux s c).1).current_page = s.current_page ∧
    some (((navigateAux s c).1).selected_value) =
      ((get_page_items s s.current_page).get? j).map (fun x => x.value) := by
  unfold navigateAux
  rw [if_neg hnpk, if_neg hppk, if_neg (by simp [hfpk]), if_neg (by simp [hlpk]), hfs]
  dsimp only
  rw [dif_pos hlt]
  refine ⟨rfl, rfl, rfl, ?_⟩
  dsimp only
  rw [List.get?_eq_get hlt]
  rfl

theorem navigateAux_select_of_ge {α : Type} (s : MenuState α) (c : List Char) (j : Nat)
    (hnpk : ¬ (c = s.next_page_key)) (hppk : ¬ (c = s.previous_page_key))
    (hfpk : optKeyMatches c s.first_page_key = false)
    (hlpk : optKeyMatches c s.last_page_key = false)
    (hfs : findSub s.keys c = some j)
    (hge : (get_page_items s s.current_page).length ≤ j) :
    navigateAux s c = (s, some c) := by
  unfold navigateAux
  rw [if_neg hnpk, if_neg hppk, if_neg (by simp [hfpk]), if_neg (by simp [hlpk]), hfs]
  dsimp only
  rw [dif_neg (by omega)]

/-- On a successfully constructed menu, a command that occurs inside the
active key alphabet can be none of the navigation keys (they were validated
to not occur in `keys`). -/
theorem mk_command_not_nav {α : Type} {it : List (MenuItem α)} {ps : Int}
    {keys npk ppk : List Char} {fpk lpk : Option (List Char)} {d : α} {m : MenuState α}
    {c : List Char}
    (hm : mkPagedMenu it ps keys npk ppk fpk lpk d = .ok m)
    (hsub : (findSub m.keys c).isSome = true) :
    ¬ (c = m.next_page_key) ∧ ¬ (c = m.previous_page_key) ∧
    optKeyMatches c m.first_page_key = false ∧ optKeyMatches c m.last_page_key = false := by
  obtain ⟨-, -, -, hnpk, hppk, hfpk, hlpk, hmeq⟩ := mk_ok_inv hm
  have hkeys : m.keys = keys.take (min ps.toNat keys.length) := by rw [hmeq]
  have hsubkeys : (findSub keys c).isSome = true := by
    rw [hkeys] at hsub
    exact findSub_take_isSome hsub
  have hnext : m.next_page_key = npk := by rw [hmeq]
  have hprev : m.previous_page_key = ppk := by rw [hmeq]
  have hfirst : m.first_page_key = fpk := by rw [hmeq]
  have hlast : m.last_page_key = lpk := by rw [hmeq]
  refine ⟨?_, ?_, ?_, ?_⟩
  · rw [hnext]
    rintro rfl
    rw [hnpk] at hsubkeys
    exact Bool.noConfusion hsubkeys
  · rw [hprev]
    rintro rfl
    rw [hppk] at hsubkeys
    exact Bool.noConfusion hsubkeys
  · rw [hfirst]
    cases fpk with
    | none => rfl
    | some k =>
      simp only [optKeyMatches, decide_eq_false_iff_not]
      rintro ⟨rfl, hk⟩
      simp [optKeyCollides, hsubkeys, hk] at hfpk
  · rw [hlast]
    cases lpk with
    | none => rfl
    | some k =>
      simp only [optKeyMatches, decide_eq_false_iff_not]
      rintro ⟨rfl, hk⟩
      simp [optKeyCollides, hsubkeys, hk] at hlpk

/-- The active key alphabet has exactly `page_size` keys on a successfully
constructed menu. -/
theorem mk_keys_length {α : Type} {it : List (MenuItem α)} {ps : Int}
    {keys npk ppk : List Char} {fpk lpk : Option (List Char)} {d : α} {m : MenuState α}
    (hm : mkPagedMenu it ps keys npk ppk fpk lpk d = .ok m) :
    m.keys.length = m.page_size := by
  obtain ⟨-, -, h3, -, -, -, -, hmeq⟩ := mk_ok_inv hm
  rw [hmeq]
  simp only [List.length_take]
  omega

/-! ### Shapes of navigateAux outcomes -/

theorem navigateAux_snd_cases {α : Type} (s : MenuState α) (c : List Char) :
    (navigateAux s c).2 = none ∨ navigateAux s c = (s, some c) := by
  unfold navigateAux
  split_ifs <;> try (left; rfl)
  rcases hfs : findSub s.keys c with - | j
  · right; rfl
  · dsimp only
    split_ifs
    · left; rfl
    · right; rfl

theorem navigateAux_cp_range {α : Type} (s : MenuState α) (c : List Char)
    (h1 : 1 ≤ s.total_pages) (h2 : 0 ≤ s.current_page)
    (h3 : s.current_page ≤ (s.total_pages : Int) - 1) :
    0 ≤ ((navigateAux s c).1).current_page ∧
    ((navigateAux s c).1).current_page ≤ (s.total_pages : Int) - 1 := by
  unfold navigateAux
  split_ifs <;> try (constructor <;> dsimp only <;> omega)
  rcases hfs : findSub s.keys c with - | j
  · constructor <;> dsimp only <;> omega
  · dsimp only
    split_ifs <;> constructor <;> dsimp only <;> omega

theorem navigateAux_cp_frozen {α : Type} (s : MenuState α) (c : List Char)
    (ht : s.total_pages = 0) (hcp : s.current_page = 0)
    (hl : optKeyMatches c s.last_page_key = false) :
    ((navigateAux s c).1).current_page = 0 := by
  unfold navigateAux
  split_ifs <;> try (dsimp only <;> omega)
  · simp_all
  · rcases hfs : findSub s.keys c with - | j
    · dsimp only
      exact hcp
    · dsimp only
      split_ifs <;> exact hcp

theorem navigateAux_next_noop {α : Type} (s : MenuState α)
    (h : s.current_page = (s.total_pages : Int) - 1) :
    ((navigateAux s s.next_page_key).1).current_page = s.current_page := by
  unfold navigateAux
  rw [if_pos rfl, if_neg (by omega : ¬ s.current_page < (s.total_pages : Int) - 1)]

theorem navigateAux_prev_noop {α : Type} (s : MenuState α) (hcp : s.current_page = 0)
    (hne : ¬ (s.previous_page_key = s.next_page_key)) :
    ((navigateAux s s.previous_page_key).1).current_page = 0 := by
  unfold navigateAux
  rw [if_neg hne, if_pos rfl, if_neg (by omega : ¬ s.current_page > 0)]
  exact hcp

/-! ### Ceiling division -/

theorem nat_ceil_eq_pred_div (a b : Nat) (hb : 0 < b) :
    ⌈(a : ℚ) / (b : ℚ)⌉₊ = (a + b - 1) / b := by
  have hbq : (0 : ℚ) < (b : ℚ) := by exact_mod_cast hb
  have fact1 : a + b - 1 < ((a + b - 1) / b + 1) * b :=
    (Nat.div_lt_iff_lt_mul hb).mp (Nat.lt_succ_self _)
  have fact2 : (a + b - 1) / b * b ≤ a + b - 1 := Nat.div_mul_le_self _ _
  have hexp : ((a + b - 1) / b + 1) * b = (a + b - 1) / b * b + b := by ring
  apply le_antisymm
  · rw [Nat.ceil_le, div_le_iff hbq]
    have hle : a ≤ (a + b - 1) / b * b := by omega
    exact_mod_cast hle
  · rcases Nat.eq_zero_or_pos ((a + b - 1) / b) with hq | hq
    · rw [hq]
      exact Nat.zero_le _
    · have ha : 0 < a := by
        rcases Nat.eq_zero_or_pos a with h0 | h0
        · subst h0
          rw [Nat.div_eq_of_lt (by omega)] at hq
          omega
        · exact h0
      rw [← Nat.succ_pred_eq_of_pos hq, Nat.succ_le_iff, Nat.lt_ceil, lt_div_iff hbq]
      have hsub : ((a + b - 1) / b - 1) * b = (a + b - 1) / b * b - b := Nat.sub_one_mul _ _
      have hnat : ((a + b - 1) / b - 1) * b < a := by omega
      exact_mod_cast hnat

/-! ### Claim theorems -/

/-- C6: for every valid configuration the constructed `total_pages` equals
`ceil(len(items) / page_size)`, an empty item collection yields
`total_pages = 0`, and `navigate` never changes `total_pages` (it is
computed once at construction). -/
theorem C6_total_pages_ceil {α : Type} (it : List (MenuItem α)) (ps : Int)
    (keys npk ppk : List Char) (fpk lpk : Option (List Char)) (d : α) (m : MenuState α)
    (h : mkPagedMenu it ps keys npk ppk fpk lpk d = .ok m) :
    m.total_pages = ⌈(it.length : ℚ) / (ps : ℚ)⌉₊ ∧
    (it = [] → m.total_pages = 0) ∧
    (∀ (s : MenuState α) (c : List Char), ((navigate s c).1).total_pages = s.total_pages) := by
  obtain ⟨h1, h2, h3, -, -, -, -, hm⟩ := mk_ok_inv h
  have hps : min ps.toNat keys.length = ps.toNat := by omega
  have hpos : 0 < ps.toNat := by omega
  refine ⟨?_, ?_, fun s c => navigate_total_pages s c⟩
  · have hcast : ((ps : Int) : ℚ) = ((ps.toNat : Nat) : ℚ) := by
      rw [← Int.toNat_of_nonneg (by omega : (0 : Int) ≤ ps)]
      push_cast
      rfl
    rw [hm]
    show (it.length + min ps.toNat keys.length - 1) / min ps.toNat keys.length = _
    rw [hps, hcast, nat_ceil_eq_pred_div it.length ps.toNat hpos]
  · intro hit
    rw [hm]
    show (it.length + min ps.toNat keys.length - 1) / min ps.toNat keys.length = 0
    rw [hps]
    subst hit
    simp only [List.length_nil]
    rw [Nat.div_eq_of_lt (by omega)]

theorem C6_total_pages_ceil_witness :
    mkPagedMenu [item 1, item 2, item 3] 2 ['a', 'b'] ['.'] [','] (some ['<']) (some ['>'])
      (0 : Nat) = .ok menu3 ∧
    menu3.total_pages = ⌈((([item 1, item 2, item 3] : List (MenuItem Nat)).length : Nat) : ℚ) /
      (((2 : Int)) : ℚ)⌉₊ := by
  have hmk : mkPagedMenu [item 1, item 2, item 3] 2 ['a', 'b'] ['.'] [','] (some ['<'])
      (some ['>']) (0 : Nat) = .ok menu3 := by decide
  exact ⟨hmk,
    (C6_total_pages_ceil [item 1, item 2, item 3] 2 ['a', 'b'] ['.'] [','] (some ['<'])
      (some ['>']) 0 menu3 hmk).1⟩

/-- C4: construction validates the four invariants in order (page size at
least 2; at least 2 keys; enough keys for the page size; navigation keys
absent from the key alphabet), failing on the first violation with a message
identifying the invariant and, for a navigation-key collision, which
navigation key collided; a successful construction implies all invariants
hold (so no engine is ever returned from a violating configuration). -/
theorem C4_construction_validation {α : Type} (it : List (MenuItem α)) (ps : Int)
    (keys npk ppk : List Char) (fpk lpk : Option (List Char)) (d : α) :
    (ps < 2 →
      mkPagedMenu it ps keys npk ppk fpk lpk d = .error "Page size less than 2".toList) ∧
    (2 ≤ ps → keys.length < 2 →
      mkPagedMenu it ps keys npk ppk fpk lpk d = .error "Less than 2 keys defined".toList) ∧
    (2 ≤ ps → 2 ≤ keys.length → (keys.length : Int) < ps →
      mkPagedMenu it ps keys npk ppk fpk lpk d =
        .error "Not enough keys for the page size".toList) ∧
    (2 ≤ ps → 2 ≤ keys.length → ps ≤ (keys.length : Int) →
      (findSub keys npk).isSome = true →
      mkPagedMenu it ps keys npk ppk fpk lpk d =
        .error "Next page key cannot be used as menu key".toList) ∧
    (2 ≤ ps → 2 ≤ keys.length → ps ≤ (keys.length : Int) →
      findSub keys npk = none → (findSub keys ppk).isSome = true →
      mkPagedMenu it ps keys npk ppk fpk lpk d =
        .error "Previous page key cannot be used as menu key".toList) ∧
    (2 ≤ ps → 2 ≤ keys.length → ps ≤ (keys.length : Int) →
      findSub keys npk = none → findSub keys ppk = none →
      optKeyCollides keys fpk = true →
      mkPagedMenu it ps keys npk ppk fpk lpk d =
        .error "First page key cannot be used as menu key".toList) ∧
    (2 ≤ ps → 2 ≤ keys.length → ps ≤ (keys.length : Int) →
      findSub keys npk = none → findSub keys ppk = none →
      optKeyCollides keys fpk = false → optKeyCollides keys lpk = true →
      mkPagedMenu it ps keys npk ppk fpk lpk d =
        .error "Last page key cannot be used as menu key".toList) ∧
    (∀ m : MenuState α, mkPagedMenu it ps keys npk ppk fpk lpk d = .ok m →
      2 ≤ ps ∧ 2 ≤ keys.length ∧ ps ≤ (keys.length : Int) ∧
      findSub keys npk = none ∧ findSub keys ppk = none ∧
      optKeyCollides keys fpk = false ∧ optKeyCollides keys lpk = false) := by
  refine ⟨?_, ?_, ?_, ?_, ?_, ?_, ?_, ?_⟩
  · intro h1
    unfold mkPagedMenu
    rw [if_pos h1]
  · intro h1 h2
    unfold mkPagedMenu
    rw [if_neg (by omega), if_pos (Or.inr h2)]
  · intro h1 h2 h3
    unfold mkPagedMenu
    rw [if_neg (by omega), if_neg (by rintro (rfl | hh) <;> first | simp at h2 | omega), if_pos h3]
  · intro h1 h2 h3 h4
    unfold mkPagedMenu
    rw [if_neg (by omega), if_neg (by rintro (rfl | hh) <;> first | simp at h2 | omega),
      if_neg (by omega), if_pos h4]
  · intro h1 h2 h3 h4 h5
    unfold mkPagedMenu
    rw [if_neg (by omega), if_neg (by rintro (rfl | hh) <;> first | simp at h2 | omega),
      if_neg (by omega), if_neg (by simp [h4]), if_pos h5]
  · intro h1 h2 h3 h4 h5 h6
    unfold mkPagedMenu
    rw [if_neg (by omega), if_neg (by rintro (rfl | hh) <;> first | simp at h2 | omega),
      if_neg (by omega), if_neg (by simp [h4]), if_neg (by simp [h5]), if_pos h6]
  · intro h1 h2 h3 h4 h5 h6 h7
    unfold mkPagedMenu
    rw [if_neg (by omega), if_neg (by rintro (rfl | hh) <;> first | simp at h2 | omega),
      if_neg (by omega), if_neg (by simp [h4]), if_neg (by simp [h5]),
      if_neg (by simp [h6]), if_pos h7]
  · intro m hm
    obtain ⟨g1, g2, g3, g4, g5, g6, g7, -⟩ := mk_ok_inv hm
    exact ⟨g1, g2, g3, g4, g5, g6, g7⟩

theorem C4_construction_validation_witness :
    mkPagedMenu ([] : List (MenuItem Nat)) 1 ['a', 'b'] ['.'] [','] none none 0 =
      .error "Page size less than 2".toList ∧
    mkPagedMenu ([] : List (MenuItem Nat)) 2 ['.', 'b'] ['.'] [','] none none 0 =
      .error "Next page key cannot be used as menu key".toList := by
  constructor
  · exact (C4_construction_validation ([] : List (MenuItem Nat)) 1 ['a', 'b'] ['.'] [',']
      none none 0).1 (by decide)
  · exact (C4_construction_validation ([] : List (MenuItem Nat)) 2 ['.', 'b'] ['.'] [',']
      none none 0).2.2.2.1 (by decide) (by decide) (by decide) (by decide)

/-- C8: a command that `navigate` processes without raising leaves the
`status` field unchanged (it is never cleared on success; only the run loop
overwrites it, and only on an invalid-key error). -/
theorem C8_status_never_cleared {α : Type} (s : MenuState α) (c : List Char)
    (h : (navigate s c).2 = none) : ((navigate s c).1).status = s.status :=
  navigate_status s c

theorem C8_status_never_cleared_witness :
    (navigate menu3 ['.']).2 = none ∧ ((navigate menu3 ['.']).1).status = menu3.status :=
  ⟨by decide, C8_status_never_cleared menu3 ['.'] (by decide)⟩

/-- C10: when `navigate` raises `InvalidMenuKeyError` on a non-empty
command, the state is exactly as before the call (error atomicity for
non-empty tokens). -/
theorem C10_raise_atomic {α : Type} (s : MenuState α) (c k : List Char)
    (hc : ¬ (c = [])) (h : (navigate s c).2 = some k) : (navigate s c).1 = s := by
  rw [navigate_of_ne_nil hc] at h ⊢
  rcases navigateAux_snd_cases s c with h2 | h2
  · rw [h2] at h
    exact Option.noConfusion h
  · rw [h2]

theorem C10_raise_atomic_witness :
    (navigate menu3 ['z']).2 = some ['z'] ∧ (navigate menu3 ['z']).1 = menu3 :=
  ⟨by decide, C10_raise_atomic menu3 ['z'] ['z'] (by decide) (by decide)⟩

/-- C5: an invalid-key condition raised by `navigate` never escapes the run
loop: the loop body catches it, stores the status message
`"Error: <token> is not a valid menu key."` naming the offending token, and
continues with the next iteration instead of returning. -/
theorem C5_invalid_key_contained {α : Type} (s : MenuState α) (c k : List Char)
    (h : (navigate s c).2 = some k) :
    runStep s c = .cont { (navigate s c).1 with status := invalidKeyStatus k } ∧
    invalidKeyStatus k = "Error: ".toList ++ k ++ " is not a valid menu key.".toList ∧
    (∀ (line : List Char) (rest : List (List Char)), pyStrip line = c →
      runLoop s (line :: rest) =
        runLoop { (navigate s c).1 with status := invalidKeyStatus k } rest) := by
  have hstep : runStep s c = .cont { (navigate s c).1 with status := invalidKeyStatus k } := by
    unfold runStep
    rcases hp : navigate s c with ⟨s2, e⟩
    rw [hp] at h
    dsimp only at h
    subst h
    rfl
  refine ⟨hstep, rfl, fun line rest hline => ?_⟩
  conv_lhs => rw [runLoop]
  rw [hline, hstep]

theorem C5_invalid_key_contained_witness :
    (navigate menu3 ['z']).2 = some ['z'] ∧
    runStep menu3 ['z'] = .cont { (navigate menu3 ['z']).1 with status := invalidKeyStatus ['z'] } :=
  ⟨by decide, (C5_invalid_key_contained menu3 ['z'] ['z'] (by decide)).1⟩

/-- C7 (amended): for a non-negative page, `get_page_items` is the slice of
`items` covering `[page*page_size, page*page_size + page_size)` clipped to
the collection bounds (in particular it is empty once `page*page_size`
reaches the collection length), and for every page — negative pages
included — the result has length at most `page_size` and the function never
fails (it is total).  For negative pages Python's negative-index slicing
applies, so an out-of-range negative page need not yield the empty list
(see the counterexample). -/
theorem C7_page_items_amended {α : Type} (s : MenuState α) (page : Int) :
    (0 ≤ page →
      get_page_items s page = (s.items.drop (page.toNat * s.page_size)).take s.page_size) ∧
    (0 ≤ page → s.items.length ≤ page.toNat * s.page_size → get_page_items s page = []) ∧
    (get_page_items s page).length ≤ s.page_size := by
  refine ⟨fun hp => get_page_items_nonneg s page hp, fun hp hlen => ?_,
    get_page_items_length_le s page⟩
  rw [get_page_items_nonneg s page hp, List.drop_of_length_le hlen]
  simp

theorem C7_page_items_amended_witness :
    (get_page_items menu5 ((1 : Nat) : Int) =
      (menu5.items.drop (((1 : Nat) : Int).toNat * menu5.page_size)).take menu5.page_size) ∧
    (get_page_items menu5 ((3 : Nat) : Int) = []) := by
  constructor
  · exact (C7_page_items_amended menu5 ((1 : Nat) : Int)).1 (by decide)
  · exact (C7_page_items_amended menu5 ((3 : Nat) : Int)).2.1 (by decide) (by decide)

/-- C7 counterexample: page `-2` of a five-item, page-size-2 menu is out of
range, yet `get_page_items` returns the two items at positions 1 and 2
(Python negative-index slicing), not the empty sequence the claim
predicts. -/
theorem C7_counterexample :
    mkPagedMenu [item 1, item 2, item 3, item 4, item 5] 2 ['a', 'b'] ['.'] [','] none none 0 =
      .ok menu5 ∧
    menu5.total_pages = 3 ∧
    get_page_items menu5 (-2) = [item 2, item 3] ∧
    ¬ (get_page_items menu5 (-2) = []) := by decide

/-- C3 (amended): every command keeps `current_page` inside
`[0, total_pages - 1]` whenever it starts inside that range (which forces
`total_pages ≥ 1`); with an empty item list
(`total_pages = 0`, `current_page = 0`) every command that does not match an
enabled `last_page_key` leaves `current_page` unchanged; `next_page_key` on
the last page is a no-op; and `previous_page_key` on page 0 is a no-op
provided `previous_page_key ≠ next_page_key`.  (`last_page_key` on an empty
menu sets `current_page` to `-1`, and a `previous_page_key` equal to
`next_page_key` is captured by the next-page branch — see the
counterexample.) -/
theorem C3_nav_range_amended {α : Type} (s : MenuState α) :
    (∀ c : List Char, 0 ≤ s.current_page →
      s.current_page ≤ (s.total_pages : Int) - 1 →
      0 ≤ ((navigate s c).1).current_page ∧
      ((navigate s c).1).current_page ≤ (s.total_pages : Int) - 1) ∧
    (s.total_pages = 0 → s.current_page = 0 →
      ∀ c : List Char, optKeyMatches c s.last_page_key = false →
      ((navigate s c).1).current_page = 0) ∧
    (s.current_page = (s.total_pages : Int) - 1 →
      ((navigate s s.next_page_key).1).current_page = s.current_page) ∧
    (s.current_page = 0 → ¬ (s.previous_page_key = s.next_page_key) →
      ((navigate s s.previous_page_key).1).current_page = 0) := by
  refine ⟨?_, ?_, ?_, ?_⟩
  · intro c h2 h3
    have h1 : 1 ≤ s.total_pages := by omega
    unfold navigate
    by_cases hc : c = []
    · rw [if_pos hc]
      exact navigateAux_cp_range _ c h1 h2 h3
    · rw [if_neg hc]
      exact navigateAux_cp_range _ c h1 h2 h3
  · intro ht hcp c hl
    unfold navigate
    by_cases hc : c = []
    · rw [if_pos hc]
      exact navigateAux_cp_frozen _ c ht hcp hl
    · rw [if_neg hc]
      exact navigateAux_cp_frozen _ c ht hcp hl
  · intro hcp
    unfold navigate
    by_cases hc : s.next_page_key = []
    · rw [if_pos hc]
      exact navigateAux_next_noop _ hcp
    · rw [if_neg hc]
      exact navigateAux_next_noop _ hcp
  · intro hcp hne
    unfold navigate
    by_cases hc : s.previous_page_key = []
    · rw [if_pos hc]
      exact navigateAux_prev_noop _ hcp hne
    · rw [if_neg hc]
      exact navigateAux_prev_noop _ hcp hne

theorem C3_nav_range_amended_witness :
    (0 ≤ ((navigate menu3 ['.']).1).current_page ∧
      ((navigate menu3 ['.']).1).current_page ≤ ((menu3.total_pages : Nat) : Int) - 1) ∧
    ((navigate menuEmpty ['.']).1).current_page = 0 ∧
    ((navigate { menu3 with current_page := 1 } menu3.next_page_key).1).current_page = 1 := by
  refine ⟨?_, ?_, ?_⟩
  · exact (C3_nav_range_amended menu3).1 ['.'] (by decide) (by decide)
  · exact (C3_nav_range_amended menuEmpty).2.1 (by decide) (by decide) ['.'] (by decide)
  · exact (C3_nav_range_amended { menu3 with current_page := 1 }).2.2.1 (by decide)

/-- C3 counterexample: on an empty item list, `last_page_key` sets
`current_page := total_pages - 1 = -1` (not a no-op, and outside
`[0, total_pages - 1]`); and when `previous_page_key` equals
`next_page_key`, submitting the previous-page key on page 0 is captured by
the next-page branch and moves to page 1 rather than being a no-op. -/
theorem C3_counterexample :
    mkPagedMenu ([] : List (MenuItem Nat)) 2 ['a', 'b'] ['.'] [','] (some ['<']) (some ['>']) 0 =
      .ok menuEmpty ∧
    (navigate menuEmpty ['>']).1.current_page = -1 ∧
    mkPagedMenu [item 1, item 2, item 3] 2 ['a', 'b'] ['.'] ['.'] none none 0 = .ok menuPP ∧
    menuPP.previous_page_key = ['.'] ∧
    menuPP.current_page = 0 ∧
    (navigate menuPP ['.']).1.current_page = 1 := by decide

/-- C1 (code bug): the empty command sets `selected` and
`selected_value := default`, but the source then falls through into the
if/elif chain, and in Python `'' in keys` is `True` with index 0 — so on a
non-empty current page the empty command overwrites `selected_value` with
the first item of the page (`run` returns 1, not the default 0), and on an
empty page it raises `InvalidMenuKeyError('')`. -/
theorem C1_empty_command_bug :
    mkPagedMenu [item 1, item 2, item 3] 2 ['a', 'b'] ['.'] [','] (some ['<']) (some ['>']) 0 =
      .ok menu3 ∧
    menu3.default = 0 ∧
    (navigate menu3 []).2 = none ∧
    ((navigate menu3 []).1).selected = true ∧
    ((navigate menu3 []).1).selected_value = 1 ∧
    ¬ (((navigate menu3 []).1).selected_value = menu3.default) ∧
    run menu3 [[]] = some 1 ∧
    ¬ (run menu3 [[]] = some menu3.default) ∧
    mkPagedMenu ([] : List (MenuItem Nat)) 2 ['a', 'b'] ['.'] [','] (some ['<']) (some ['>']) 0 =
      .ok menuEmpty ∧
    (navigate menuEmpty []).2 = some [] := by decide

/-- C2 (amended with pairwise-distinct active keys): on a successfully
constructed menu whose active key alphabet has no repeated characters, with
`current_page = p`, the key at position `i` of the alphabet selects
`items[p*page_size + i].value` and sets the terminal `selected` flag when
`i` is within the current page's item count, and raises `InvalidMenuKeyError`
naming the offending token when `i` falls in the gap of a short final
page. -/
theorem C2_positional_select {α : Type} (it : List (MenuItem α)) (ps : Int)
    (keys npk ppk : List Char) (fpk lpk : Option (List Char)) (d : α) (m : MenuState α)
    (p i : Nat)
    (hm : mkPagedMenu it ps keys npk ppk fpk lpk d = .ok m)
    (hnd : m.keys.Nodup)
    (hi : i < m.keys.length) :
    (i < (get_page_items { m with current_page := ((p : Nat) : Int) } ((p : Nat) : Int)).length →
      (navigate { m with current_page := ((p : Nat) : Int) } [m.keys.get ⟨i, hi⟩]).2 = none ∧
      ((navigate { m with current_page := ((p : Nat) : Int) } [m.keys.get ⟨i, hi⟩]).1).selected
        = true ∧
      some (((navigate { m with current_page := ((p : Nat) : Int) }
          [m.keys.get ⟨i, hi⟩]).1).selected_value) =
        (m.items.get? (p * m.page_size + i)).map (fun x => x.value)) ∧
    ((get_page_items { m with current_page := ((p : Nat) : Int) } ((p : Nat) : Int)).length ≤ i →
      navigate { m with current_page := ((p : Nat) : Int) } [m.keys.get ⟨i, hi⟩] =
        ({ m with current_page := ((p : Nat) : Int) }, some [m.keys.get ⟨i, hi⟩])) := by
  have hc : ¬ ([m.keys.get ⟨i, hi⟩] = ([] : List Char)) := by simp
  have hfs : findSub m.keys [m.keys.get ⟨i, hi⟩] = some i := findSub_nodup_get hnd i hi
  have hsub : (findSub m.keys [m.keys.get ⟨i, hi⟩]).isSome = true := by rw [hfs]; rfl
  obtain ⟨hnn, hnp, hnf, hnl⟩ := mk_command_not_nav hm hsub
  have hips : i < m.page_size := by
    have := mk_keys_length hm
    omega
  constructor
  · intro hlt
    rw [navigate_of_ne_nil hc]
    obtain ⟨e1, e2, -, e4⟩ := navigateAux_select_of_lt
      { m with current_page := ((p : Nat) : Int) } [m.keys.get ⟨i, hi⟩] i hnn hnp hnf hnl hfs hlt
    refine ⟨e1, e2, ?_⟩
    rw [e4]
    show ((get_page_items { m with current_page := ((p : Nat) : Int) }
      ((p : Nat) : Int)).get? i).map (fun x => x.value) = _
    rw [get_page_items_get? { m with current_page := ((p : Nat) : Int) } p i hips]
  · intro hge
    rw [navigate_of_ne_nil hc]
    exact navigateAux_select_of_ge _ _ i hnn hnp hnf hnl hfs hge

theorem C2_positional_select_witness :
    ((navigate { menu3 with current_page := ((0 : Nat) : Int) } ['b']).2 = none ∧
      ((navigate { menu3 with current_page := ((0 : Nat) : Int) } ['b']).1).selected = true ∧
      some (((navigate { menu3 with current_page := ((0 : Nat) : Int) } ['b']).1).selected_value) =
        (menu3.items.get? (0 * menu3.page_size + 1)).map (fun x => x.value)) ∧
    navigate { menu3 with current_page := ((1 : Nat) : Int) } ['b'] =
      ({ menu3 with current_page := ((1 : Nat) : Int) }, some ['b']) := by
  constructor
  · exact (C2_positional_select [item 1, item 2, item 3] 2 ['a', 'b'] ['.'] [',']
      (some ['<']) (some ['>']) 0 menu3 0 1 (by decide) (by decide) (by decide)).1 (by decide)
  · exact (C2_positional_select [item 1, item 2, item 3] 2 ['a', 'b'] ['.'] [',']
      (some ['<']) (some ['>']) 0 menu3 1 1 (by decide) (by decide) (by decide)).2 (by decide)

/-- C2 counterexample: the constructor accepts the key alphabet `"aa"`
(distinctness is not validated), and there the key at position 1 is the
character `a`, whose computed index is its first occurrence 0 — selecting
the page's item 0 (value 10) rather than `items[0*page_size + 1]`
(value 20) as the claim states for every valid configuration. -/
theorem C2_counterexample :
    mkPagedMenu [item 10, item 20] 2 ['a', 'a'] ['.'] [','] none none 0 = .ok menuAA ∧
    menuAA.keys = ['a', 'a'] ∧
    (get_page_items menuAA ((0 : Nat) : Int)).length = 2 ∧
    (menuAA.items.get? (0 * menuAA.page_size + 1)).map (fun x => x.value) = some 20 ∧
    ((navigate { menuAA with current_page := ((0 : Nat) : Int) } ['a']).1).selected_value = 10 ∧
    ¬ (some (((navigate { menuAA with current_page := ((0 : Nat) : Int) }
          ['a']).1).selected_value) =
        (menuAA.items.get? (0 * menuAA.page_size + 1)).map (fun x => x.value)) := by decide

/-- C9: a multi-character token that occurs contiguously inside the active
key alphabet is accepted by the membership test (Python substring
containment); its index is the position where the substring begins, and
when that position is within the current page's item count the token
selects that item rather than raising an invalid-key error. -/
theorem C9_substring_select {α : Type} (it : List (MenuItem α)) (ps : Int)
    (keys npk ppk : List Char) (fpk lpk : Option (List Char)) (d : α) (m : MenuState α)
    (p : Nat) (t : List Char) (j : Nat)
    (hm : mkPagedMenu it ps keys npk ppk fpk lpk d = .ok m)
    (ht : 2 ≤ t.length)
    (hf : findSub m.keys t = some j)
    (hj : j < (get_page_items { m with current_page := ((p : Nat) : Int) }
      ((p : Nat) : Int)).length) :
    (navigate { m with current_page := ((p : Nat) : Int) } t).2 = none ∧
    ((navigate { m with current_page := ((p : Nat) : Int) } t).1).selected = true ∧
    some (((navigate { m with current_page := ((p : Nat) : Int) } t).1).selected_value) =
      ((get_page_items { m with current_page := ((p : Nat) : Int) }
        ((p : Nat) : Int)).get? j).map (fun x => x.value) := by
  have hc : ¬ (t = []) := by
    intro h
    rw [h] at ht
    simp at ht
  have hsub : (findSub m.keys t).isSome = true := by rw [hf]; rfl
  obtain ⟨hnn, hnp, hnf, hnl⟩ := mk_command_not_nav hm hsub
  rw [navigate_of_ne_nil hc]
  obtain ⟨e1, e2, -, e4⟩ := navigateAux_select_of_lt
    { m with current_page := ((p : Nat) : Int) } t j hnn hnp hnf hnl hf hj
  exact ⟨e1, e2, by rw [e4]⟩

theorem C9_substring_select_witness :
    (navigate { menu10 with current_page := ((0 : Nat) : Int) } ['a', 'b']).2 = none ∧
    ((navigate { menu10 with current_page := ((0 : Nat) : Int) } ['a', 'b']).1).selected = true ∧
    some (((navigate { menu10 with current_page := ((0 : Nat) : Int) }
        ['a', 'b']).1).selected_value) =
      ((get_page_items { menu10 with current_page := ((0 : Nat) : Int) }
        ((0 : Nat) : Int)).get? 0).map (fun x => x.value) := by
  exact C9_substring_select [item 1, item 2, item 3] 10
    ['a', 'b', 'c', 'd', 'e', 'f', 'g', 'h', 'i', 'j'] ['.'] [','] none none 0 menu10
    0 ['a', 'b'] 0 (by decide) (by decide) (by decide) (by decide)

end PyMenu
